import Mathlib

/-!
Verification of the cron job scheduler service.

This file shallowly embeds the core of the scheduler service (the cron
evaluator `calculateNextRunTime`, the job repository operations, the
scheduler service state machine and the in-memory cache service) and
settles the frozen claims about it.

Timestamps are modeled as `Int` milliseconds since the Unix epoch.  The
source manipulates JavaScript `Date` values after adding the IST offset and
then uses the civil accessors (`getMinutes`, `setHours`, ...); following the
specification's design note ("adds the IST offset to a UTC instant and
manipulates it as if it were UTC"), those accessors are modeled as the civil
decomposition of the shifted timestamp in a fixed-offset calendar, which is
floor division / Euclidean remainder (`/`, `%` on `Int`) by the millisecond
size of the unit.
-/

namespace Scheduler

/-- IST offset: UTC+5:30 in milliseconds (`5.5 * 60 * 60 * 1000`). -/
def IST_OFFSET : Int := 19800000

/-- One cron field of a 5-field expression: `*`, a literal integer, or a
`*/N` step.  This is the grammar of §3 of the spec (`*`, integer, and `*/N`
step forms per field); wider forms (ranges, lists) are rejected by the
validator and are outside the modeled expression space. -/
inductive CronField where
  | star : CronField
  | num : Nat → CronField
  | step : Nat → CronField
deriving DecidableEq, Repr

/-- A 5-field cron expression `minute hour day month dayOfWeek`. -/
structure CronExpr where
  minute : CronField
  hour : CronField
  day : CronField
  month : CronField
  dayOfWeek : CronField
deriving DecidableEq, Repr

/-- The expression `* * * * *`. -/
def CronExpr.allStar : CronExpr := ⟨.star, .star, .star, .star, .star⟩

/-- Validity of one cron field given the field's value range. -/
def fieldOk (lo hi : Nat) (f : CronField) : Bool :=
  match f with
  | .star => true
  | .num v => lo ≤ v && v ≤ hi
  | .step n => 1 ≤ n && n ≤ 59

/-- Modelled from the spec: `cron.validate` comes from the `node-cron`
library, which is not part of the repository sources.  Per §4.B it accepts
"exactly the 5-field grammar described in §3" (`*`, integer within the
field's range, `*/N` steps) and rejects additional forms. -/
def cronValidate (e : CronExpr) : Bool :=
  fieldOk 0 59 e.minute && fieldOk 0 23 e.hour && fieldOk 1 31 e.day &&
    fieldOk 1 12 e.month && fieldOk 0 6 e.dayOfWeek

/-- `setSeconds(0, 0)`: truncate a timestamp to its minute. -/
def minuteFloor (t : Int) : Int := t - t % 60000

/-- `getMinutes()`: the civil minute-of-hour of a timestamp. -/
def civilMinute (t : Int) : Int := (t / 60000) % 60

/-- `Math.ceil((m + 1) / n) * n`: the smallest positive multiple of `n`
that is strictly greater than `m`; for integers and `n ≥ 1` the ceiling
form equals `((m + n) / n) * n` in floor division. -/
def stepNextInterval (n : Nat) (m : Int) : Int := ((m + n) / n) * n

/-- `setHours(getHours() + 1)` followed by `setMinutes(0, 0, 0)`: the start
of the clock hour one hour ahead. -/
def nextHourStart (t : Int) : Int := (t + 3600000) - (t + 3600000) % 3600000

/-- The IST-frame computation of `calculateNextRunTime` (everything between
`const istTime = ...` and the final conversion back to UTC).  `ist` is the
base instant shifted by `IST_OFFSET`; the result is the next-run instant in
the same shifted frame.  `none` models the JavaScript `Invalid Date` that
arises in the daily branch when the hour field is a step (`parseInt("*/k")`
is `NaN`).  Branch order and conditions mirror the source: the `* * * * *`
string test, then `minute.startsWith("*/")`, then
`minute !== "*" && hour === "*"`, then
`minute !== "*" && hour !== "*" && day === "*" && month === "*"`, then the
generic fallback.  `setMinutes(x)` keeps seconds, `setMinutes(x,0,0)` is
hour truncation plus `x` minutes, `setHours(h,m,0,0)` is day truncation
plus `h` hours and `m` minutes, and `setHours(getHours()+1)` /
`setDate(getDate()+1)` add exactly one hour / one day in a fixed-offset
calendar. -/
def calcIst (e : CronExpr) (ist : Int) : Option Int :=
  if e = CronExpr.allStar then
    -- Every minute: truncate seconds, add one minute.
    some (minuteFloor ist + 60000)
  else
    match e.minute, e.hour with
    | .step n, _ =>
      -- Every N minutes (the hour and remaining fields are ignored).
      if 60 ≤ stepNextInterval n (civilMinute (minuteFloor ist)) then
        some (minuteFloor ist + 3600000
          - civilMinute (minuteFloor ist + 3600000) * 60000
          + (stepNextInterval n (civilMinute (minuteFloor ist)) - 60) * 60000)
      else
        some (minuteFloor ist
          - civilMinute (minuteFloor ist) * 60000
          + stepNextInterval n (civilMinute (minuteFloor ist)) * 60000)
    | .num M, .star =>
      -- Specific minute every hour.
      if (M : Int) ≤ civilMinute ist then
        some (ist - ist % 3600000 + (M : Int) * 60000 + 3600000)
      else
        some (ist - ist % 3600000 + (M : Int) * 60000)
    | .num M, .num H =>
      if e.day = .star && e.month = .star then
        -- Daily at a specific time (the dayOfWeek field is ignored).
        if ist - ist % 86400000 + (H : Int) * 3600000 + (M : Int) * 60000 ≤ ist then
          some (ist - ist % 86400000 + (H : Int) * 3600000 + (M : Int) * 60000
            + 86400000)
        else
          some (ist - ist % 86400000 + (H : Int) * 3600000 + (M : Int) * 60000)
      else some (nextHourStart ist)
    | .num _, .step _ =>
      if e.day = .star && e.month = .star then
        -- Daily branch with `parseInt` of a step hour: `NaN`, Invalid Date.
        none
      else
        some (nextHourStart ist)
    | .star, _ =>
      -- Generic fallback: start of the next hour.
      some (nextHourStart ist)

/-- Embeds `calculateNextRunTime(cronExpression, fromTime)` from
`src/models/Job.js` (duplicated verbatim in
`src/services/schedulerService.js`): validate, shift into IST, evaluate the
pattern, shift back to UTC; when validation fails the `catch` block returns
`fromTime + 1h` directly (no IST round trip). -/
def calculateNextRunTime (e : CronExpr) (fromTime : Int) : Option Int :=
  if cronValidate e then
    (calcIst e (fromTime + IST_OFFSET)).map (fun r => r - IST_OFFSET)
  else
    some (fromTime + 3600000)

/-- Whether one cron field matches a civil value (cron semantics: `*` always
matches, a literal matches its value, `*/N` matches multiples of `N`). -/
def fieldMatches (f : CronField) (v : Int) : Bool :=
  match f with
  | .star => true
  | .num M => v = (M : Int)
  | .step n => v % (n : Int) = 0

/-- Modelled from the spec: the matching semantics of §4.B ("the smallest
UTC instant `t₁ > t₀` at which the civil time (Asia/Kolkata, UTC+5:30, no
DST) satisfies the expression", seconds truncated to zero), specialised to
the hot-path shapes whose day, month and dayOfWeek fields are all `*`. -/
def hotMatches (e : CronExpr) (t : Int) : Bool :=
  e.day = CronField.star && e.month = CronField.star &&
    e.dayOfWeek = CronField.star &&
    (t + IST_OFFSET) % 60000 = 0 &&
    fieldMatches e.minute (((t + IST_OFFSET) / 60000) % 60) &&
    fieldMatches e.hour (((t + IST_OFFSET) / 3600000) % 24)

/-- The shape of expressions on which `calculateNextRunTime` produces an
Invalid Date: a literal minute together with a step hour in the daily
branch. -/
def invalidShape (e : CronExpr) : Bool :=
  match e.minute, e.hour with
  | .num _, .step _ => e.day = CronField.star && e.month = CronField.star
  | _, _ => false

/-- The shape of expressions that reach the generic "add one hour, zero the
minutes" fallback branch of `calculateNextRunTime`. -/
def isFallbackShape (e : CronExpr) : Bool :=
  if e = CronExpr.allStar then false
  else
    match e.minute, e.hour with
    | .step _, _ => false
    | .num _, .star => false
    | .num _, .num _ => !(e.day = CronField.star && e.month = CronField.star)
    | .num _, .step _ => !(e.day = CronField.star && e.month = CronField.star)
    | .star, _ => true

/-- The next minute multiple computed in the `*/N` branch is strictly
greater than the current minute. -/
lemma stepNextInterval_gt (n : Nat) (hn : 1 ≤ n) (m : Int) :
    m < stepNextInterval n m := by
  have hn' : (0 : Int) < n := by exact_mod_cast hn
  have hdm := Int.ediv_add_emod (m + n) n
  have hr0 : 0 ≤ (m + n) % n := Int.emod_nonneg _ (by omega)
  have hrlt : (m + n) % n < n := Int.emod_lt_of_pos _ hn'
  have hqn : (n : Int) * ((m + n) / n) = m + n - (m + n) % n := by linarith
  unfold stepNextInterval
  nlinarith [hqn]

/-- On a valid expression, every branch of the IST-frame evaluation returns
an instant strictly after the base instant. -/
lemma calcIst_strict (e : CronExpr) (hv : cronValidate e = true) (ist r : Int)
    (h : calcIst e ist = some r) : ist < r := by
  rcases e with ⟨mf, hf, df, mof, dwf⟩
  cases mf with
  | star =>
    simp only [calcIst] at h
    split at h
    · rw [Option.some.injEq] at h
      simp only [minuteFloor] at h
      omega
    · rw [Option.some.injEq] at h
      simp only [nextHourStart] at h
      omega
  | num M =>
    simp only [cronValidate, fieldOk, Bool.and_eq_true, decide_eq_true_eq] at hv
    have hM : (M : Int) ≤ 59 := by exact_mod_cast hv.1.1.1.1.2
    cases hf with
    | star =>
      simp only [calcIst, CronExpr.allStar, CronExpr.mk.injEq] at h
      split at h
      · rename_i hc
        exact absurd hc.1 (by simp)
      · split at h
        · rw [Option.some.injEq] at h
          omega
        · rw [Option.some.injEq] at h
          rename_i hc2
          simp only [civilMinute, not_le] at hc2
          omega
    | num H =>
      simp only [calcIst, CronExpr.allStar, CronExpr.mk.injEq] at h
      split at h
      · rename_i hc
        exact absurd hc.1 (by simp)
      · split at h
        · split at h <;> rw [Option.some.injEq] at h <;> omega
        · rw [Option.some.injEq] at h
          simp only [nextHourStart] at h
          omega
    | step k =>
      simp only [calcIst, CronExpr.allStar, CronExpr.mk.injEq] at h
      split at h
      · rename_i hc
        exact absurd hc.1 (by simp)
      · split at h
        · exact Option.noConfusion h
        · rw [Option.some.injEq] at h
          simp only [nextHourStart] at h
          omega
  | step n =>
    simp only [cronValidate, fieldOk, Bool.and_eq_true, decide_eq_true_eq] at hv
    have hn : 1 ≤ n := hv.1.1.1.1.1
    simp only [calcIst, CronExpr.allStar, CronExpr.mk.injEq] at h
    split at h
    · rename_i hc
      exact absurd hc.1 (by simp)
    · have hkey := stepNextInterval_gt n hn (civilMinute (minuteFloor ist))
      revert h
      generalize stepNextInterval n (civilMinute (minuteFloor ist)) = k at hkey ⊢
      intro h
      split at h <;> rw [Option.some.injEq] at h <;>
        simp only [minuteFloor, civilMinute] at h hkey <;> omega

/-- Strict monotonicity of the evaluator: whenever it returns a valid
instant, that instant is strictly after the base instant. -/
lemma calculateNextRunTime_strict (e : CronExpr) (t u : Int)
    (h : calculateNextRunTime e t = some u) : t < u := by
  unfold calculateNextRunTime at h
  split at h
  · rename_i hv
    rcases Option.map_eq_some'.mp h with ⟨r, hr, hru⟩
    have := calcIst_strict e hv (t + IST_OFFSET) r hr
    unfold IST_OFFSET at *
    omega
  · rw [Option.some.injEq] at h
    omega

/-- The IST-frame evaluation returns Invalid Date exactly on the
literal-minute / step-hour daily shape, independently of the instant. -/
lemma calcIst_eq_none_iff (e : CronExpr) (ist : Int) :
    calcIst e ist = none ↔ invalidShape e = true := by
  rcases e with ⟨mf, hf, df, mof, dwf⟩
  cases mf with
  | star =>
    simp only [calcIst, invalidShape]
    split <;> simp
  | num M =>
    cases hf with
    | star =>
      simp only [calcIst, invalidShape, CronExpr.allStar, CronExpr.mk.injEq]
      split
      · simp
      · split <;> simp
    | num H =>
      simp only [calcIst, invalidShape, CronExpr.allStar, CronExpr.mk.injEq]
      split
      · simp
      · split
        · split <;> simp
        · simp
    | step k =>
      simp only [calcIst, invalidShape, CronExpr.allStar, CronExpr.mk.injEq]
      split
      · rename_i hc
        exact absurd hc.1 (by simp)
      · split
        · rename_i hdm
          simp [hdm]
        · rename_i hdm
          simp only [Bool.not_eq_true] at hdm
          simp [hdm]
  | step n =>
    simp only [calcIst, invalidShape, CronExpr.allStar, CronExpr.mk.injEq]
    split
    · simp
    · split <;> simp

/-- On a fallback-shaped expression, the IST-frame evaluation lands in the
generic branch: start of the next clock hour. -/
lemma calcIst_fallback (e : CronExpr) (ist : Int)
    (hfb : isFallbackShape e = true) :
    calcIst e ist = some (nextHourStart ist) := by
  rcases e with ⟨mf, hfld, df, mof, dwf⟩
  cases mf with
  | star =>
    simp only [isFallbackShape] at hfb
    split at hfb
    · exact absurd hfb (by simp)
    · rename_i hall
      simp only [calcIst]
      rw [if_neg hall]
  | num M =>
    have h1 : (⟨CronField.num M, hfld, df, mof, dwf⟩ : CronExpr) ≠
        CronExpr.allStar := by
      simp [CronExpr.allStar]
    cases hfld with
    | star =>
      rw [isFallbackShape, if_neg h1] at hfb
      exact absurd hfb (by simp)
    | num H =>
      rw [isFallbackShape, if_neg h1] at hfb
      simp only [Bool.not_eq_eq_eq_not, Bool.not_true] at hfb
      rw [calcIst, if_neg h1]
      simp [hfb]
    | step k =>
      rw [isFallbackShape, if_neg h1] at hfb
      simp only [Bool.not_eq_eq_eq_not, Bool.not_true] at hfb
      rw [calcIst, if_neg h1]
      simp [hfb]
  | step n =>
    simp only [isFallbackShape] at hfb
    split at hfb
    · exact absurd hfb (by simp)
    · exact absurd hfb (by simp)

/-- Claim C1: the hot-path exactness requirement fails on `*/N` steps that
do not divide 60, and the spec explicitly requires exact semantics there,
so this is a bug in the code.  Concretely, for `*/7 * * * *` at IST
10:57:00 (19620000 ms UTC), `calculateNextRunTime` returns IST 11:03:00
(19980000 ms UTC) via `nextInterval - 60 = 63 - 60 = 3`, although IST
11:00:00 (19800000 ms UTC) is a strictly earlier instant matching the
expression, and minute 3 does not match `*/7` at all. -/
theorem claim_C1_code_bug :
    calculateNextRunTime ⟨.step 7, .star, .star, .star, .star⟩ 19620000 =
      some 19980000 ∧
    hotMatches ⟨.step 7, .star, .star, .star, .star⟩ 19800000 = true ∧
    (19620000 : Int) < 19800000 ∧ (19800000 : Int) < 19980000 ∧
    hotMatches ⟨.step 7, .star, .star, .star, .star⟩ 19980000 = false := by
  decide

/-- Claim C5, counterexample: `* 5 * * *` is accepted by the validator but
not special-cased, so it reaches the generic fallback; at `t₀ = 0` (IST
05:30:00) the result is the start of the next IST hour, IST 06:00:00
(1800000 ms UTC), which is not `t₀ + 1h = 3600000`. -/
theorem claim_C5_counterexample :
    calculateNextRunTime ⟨.star, .num 5, .star, .star, .star⟩ 0 =
      some 1800000 ∧ (1800000 : Int) ≠ 0 + 3600000 := by
  decide

/-- Claim C5, amended: expressions rejected by the validator yield exactly
`t₀ + 1h` (the `catch` fallback); expressions the validator accepts but
the evaluator does not special-case yield instead the start of the next
IST clock hour. -/
theorem claim_C5_amended (e : CronExpr) (t : Int) :
    (cronValidate e = false → calculateNextRunTime e t = some (t + 3600000)) ∧
    (cronValidate e = true → isFallbackShape e = true →
      calculateNextRunTime e t =
        some (nextHourStart (t + IST_OFFSET) - IST_OFFSET)) := by
  constructor
  · intro hv
    unfold calculateNextRunTime
    rw [if_neg (by simp [hv])]
  · intro hv hfb
    unfold calculateNextRunTime
    rw [if_pos hv, calcIst_fallback e (t + IST_OFFSET) hfb]
    rfl

/-- Claim C5, witness for the amended statement at concrete inputs: the
out-of-range expression `61 * * * *` yields exactly `t₀ + 1h`, and the
valid but unsupported `* 5 * * *` yields the next IST hour start. -/
theorem claim_C5_witness :
    calculateNextRunTime ⟨.num 61, .star, .star, .star, .star⟩ 100 =
      some (100 + 3600000) ∧
    calculateNextRunTime ⟨.star, .num 5, .star, .star, .star⟩ 0 =
      some (nextHourStart (0 + IST_OFFSET) - IST_OFFSET) :=
  ⟨(claim_C5_amended ⟨.num 61, .star, .star, .star, .star⟩ 100).1 (by decide),
   (claim_C5_amended ⟨.star, .num 5, .star, .star, .star⟩ 0).2 (by decide)
     (by decide)⟩

/-- Claim C8, counterexample: on `5 */2 * * *` (a literal minute with a
step hour), `parseInt` of the hour yields `NaN` and `calculateNextRunTime`
returns an Invalid Date (modeled as `none`), so the chained application in
the claim is not a valid instant and the strict inequality fails. -/
theorem claim_C8_counterexample :
    calculateNextRunTime ⟨.num 5, .step 2, .star, .star, .star⟩ 0 = none := by
  decide

/-- Claim C8, amended: whenever `calculateNextRunTime` returns a valid
instant, applying it again also returns a valid instant, and that instant
is strictly greater. -/
theorem claim_C8_amended (e : CronExpr) (t u : Int)
    (h : calculateNextRunTime e t = some u) :
    (calculateNextRunTime e u).isSome = true ∧
    ∀ v, calculateNextRunTime e u = some v → u < v := by
  refine ⟨?_, fun v hv => calculateNextRunTime_strict e u v hv⟩
  unfold calculateNextRunTime at h ⊢
  split at h
  · rename_i hval
    rw [if_pos hval]
    rcases Option.map_eq_some'.mp h with ⟨r, hr, _⟩
    cases hcu : calcIst e (u + IST_OFFSET) with
    | none =>
      rw [calcIst_eq_none_iff] at hcu
      rw [← calcIst_eq_none_iff e (t + IST_OFFSET)] at hcu
      rw [hcu] at hr
      exact Option.noConfusion hr
    | some r2 => simp [hcu]
  · rename_i hval
    rw [if_neg hval]
    simp

/-- Claim C8, witness: for `* * * * *` from `t = 0` the evaluator returns
60000; the amended theorem then gives a valid strictly later next value,
checked at 120000. -/
theorem claim_C8_witness :
    (calculateNextRunTime CronExpr.allStar 60000).isSome = true ∧
    (60000 : Int) < 120000 :=
  ⟨(claim_C8_amended CronExpr.allStar 0 60000 (by decide)).1,
   (claim_C8_amended CronExpr.allStar 0 60000 (by decide)).2 120000 (by decide)⟩

/-- A persisted row of the `jobs` table, with the typed fields the
repository reads and writes.  `cronExpression` ranges over the modeled
cron grammar; `payload` is carried opaquely as its JSON text. -/
structure JobRow where
  id : String
  name : String
  description : Option String
  cronExpression : CronExpr
  isActive : Bool
  jobType : String
  payload : String
  timeoutMs : Int
  maxRetries : Int
  retryDelayMs : Int
  createdBy : Option String
  tags : List String
  createdAt : Int
  updatedAt : Int
  lastRunAt : Option Int
  nextRunAt : Option Int
  totalRuns : Nat
  successfulRuns : Nat
  failedRuns : Nat
deriving DecidableEq, Repr

/-- `Job.prototype.validate` from `src/models/Job.js`: the name must be
non-empty after trimming, i.e. contain a non-whitespace character (the
cron-expression presence check always holds for a structured expression),
a truthy `timeoutMs` must lie in `[1000, 300000]`, and a truthy
`maxRetries` must lie in `[0, 10]` (zero is falsy in JavaScript and skips
the range check). -/
def jobValidate (j : JobRow) : Bool :=
  !(j.name.toList.all Char.isWhitespace) &&
    (j.timeoutMs = 0 || (1000 ≤ j.timeoutMs && j.timeoutMs ≤ 300000)) &&
    (j.maxRetries = 0 || (0 ≤ j.maxRetries && j.maxRetries ≤ 10))

/-- A partial update to a job: `none` means the field is absent from the
patch.  These are exactly the fields the `UPDATE jobs SET ...` statement
writes (counters, `last_run_at`, `created_at` and `next_run_at` are not
patchable through `update`). -/
structure JobPatch where
  name : Option String := none
  description : Option (Option String) := none
  cronExpression : Option CronExpr := none
  isActive : Option Bool := none
  jobType : Option String := none
  payload : Option String := none
  timeoutMs : Option Int := none
  maxRetries : Option Int := none
  retryDelayMs : Option Int := none
  createdBy : Option (Option String) := none
  tags : Option (List String) := none
deriving Repr

/-- `new Job({ ...existingJob, ...updateData })`: object spread overrides
exactly the fields present in the patch; the `Job` constructor's
snake-case/camel-case fallback chain collapses to a plain field override
for patches produced by the API layer. -/
def mergeJob (j : JobRow) (p : JobPatch) : JobRow :=
  { j with
    name := p.name.getD j.name
    description := p.description.getD j.description
    cronExpression := p.cronExpression.getD j.cronExpression
    isActive := p.isActive.getD j.isActive
    jobType := p.jobType.getD j.jobType
    payload := p.payload.getD j.payload
    timeoutMs := p.timeoutMs.getD j.timeoutMs
    maxRetries := p.maxRetries.getD j.maxRetries
    retryDelayMs := p.retryDelayMs.getD j.retryDelayMs
    createdBy := p.createdBy.getD j.createdBy
    tags := p.tags.getD j.tags }

/-- `SELECT * FROM jobs WHERE id = $1`: the row with the given id. -/
def findById (jobs : List JobRow) (id : String) : Option JobRow :=
  jobs.find? (fun r => r.id = id)

/-- The row-level effect of `updateJobStats`: `last_run_at = now`,
`total_runs = total_runs + 1`, `successful_runs += success ? 1 : 0`,
`failed_runs += success ? 0 : 1`, `updated_at = NOW()`.  The database
`NOW()` and the JavaScript `new Date()` are both modeled as `now`. -/
def applyStats (j : JobRow) (success : Bool) (now : Int) : JobRow :=
  { j with
    lastRunAt := some now
    totalRuns := j.totalRuns + 1
    successfulRuns := j.successfulRuns + (if success then 1 else 0)
    failedRuns := j.failedRuns + (if success then 0 else 1)
    updatedAt := now }

/-- The `UPDATE ... WHERE id = $1` of `updateJobStats` applied to the whole
table. -/
def updateJobStatsList (jobs : List JobRow) (id : String) (success : Bool)
    (now : Int) : List JobRow :=
  jobs.map (fun r => if r.id = id then applyStats r success now else r)

/-- `JobRepository.updateJobStats(id, stats)` from `src/models/Job.js`:
updates the matching row and returns it (`RETURNING *`), or `null` when no
row matches. -/
def JobRepository.updateJobStats (jobs : List JobRow) (id : String)
    (success : Bool) (now : Int) : Option (JobRow × List JobRow) :=
  match findById jobs id with
  | none => none
  | some j => some (applyStats j success now, updateJobStatsList jobs id success now)

/-- The row written by `JobRepository.update`: the merged job, with
`next_run_at` recomputed (from `now`) only when the cron expression
changed, and `updated_at = NOW()` (modeled as `dbNow`).  The `UPDATE`
statement does not touch the counters, `last_run_at` or `created_at`, and
the merged row carries the existing values for them. -/
def updateRow (j : JobRow) (p : JobPatch) (now dbNow : Int) : JobRow :=
  { mergeJob j p with
    nextRunAt :=
      if j.cronExpression = (mergeJob j p).cronExpression then j.nextRunAt
      else calculateNextRunTime (mergeJob j p).cronExpression now
    updatedAt := dbNow }

/-- `JobRepository.update(id, updateData)` from `src/models/Job.js`
(the `src/models` variant, which recomputes `next_run_at` on a cron
change): find the existing row, merge, validate (throwing on failure,
modeled as `none`), then persist the merged row. -/
def JobRepository.update (jobs : List JobRow) (id : String) (p : JobPatch)
    (now dbNow : Int) : Option (JobRow × List JobRow) :=
  match findById jobs id with
  | none => none
  | some existing =>
    if jobValidate (mergeJob existing p) then
      some (updateRow existing p now dbNow,
        jobs.map (fun r => if r.id = id then updateRow existing p now dbNow else r))
    else none

/-- `JobRepository.getActiveJobs()`:
`WHERE is_active = true AND (next_run_at IS NULL OR next_run_at <= NOW())`.
The `ORDER BY next_run_at ASC` is omitted; every claim about this query is
order-independent. -/
def JobRepository.getActiveJobs (jobs : List JobRow) (now : Int) : List JobRow :=
  jobs.filter (fun j => j.isActive &&
    (match j.nextRunAt with
     | none => true
     | some t => t ≤ now))

/-- `findAll({ isActive: true, limit: 1000 })` as called by the scheduler's
`loadAndScheduleJobs` and `syncJobs`: all active rows, capped at 1000.
The `ORDER BY created_at DESC` is omitted; every claim about this query is
order-independent. -/
def JobRepository.findAllActive (jobs : List JobRow) : List JobRow :=
  (jobs.filter (fun j => j.isActive)).take 1000

/-- Claim C4: `updateJobStats` increments `total_runs` by one, increments
exactly one of `successful_runs` / `failed_runs` according to the flag,
sets `last_run_at` to the current time, and therefore preserves
`successful_runs + failed_runs ≤ total_runs`. -/
theorem claim_C4_updateJobStats (jobs : List JobRow) (id : String)
    (success : Bool) (now : Int) (j : JobRow)
    (hfind : findById jobs id = some j) :
    JobRepository.updateJobStats jobs id success now =
      some (applyStats j success now, updateJobStatsList jobs id success now) ∧
    (applyStats j success now).totalRuns = j.totalRuns + 1 ∧
    (applyStats j success now).successfulRuns =
      j.successfulRuns + (if success then 1 else 0) ∧
    (applyStats j success now).failedRuns =
      j.failedRuns + (if success then 0 else 1) ∧
    (applyStats j success now).lastRunAt = some now ∧
    (j.successfulRuns + j.failedRuns ≤ j.totalRuns →
      (applyStats j success now).successfulRuns +
        (applyStats j success now).failedRuns ≤
        (applyStats j success now).totalRuns) := by
  refine ⟨?_, ?_, ?_, ?_, ?_, ?_⟩
  · rw [JobRepository.updateJobStats, hfind]
  · rfl
  · rfl
  · rfl
  · rfl
  · intro hle
    simp only [applyStats]
    cases success <;> simp <;> omega

/-- A sample persisted job used by the concrete witnesses. -/
def jobSample : JobRow :=
  { id := "job-1", name := "tick", description := some "demo"
    cronExpression := CronExpr.allStar, isActive := true
    jobType := "scheduled", payload := "{}", timeoutMs := 30000
    maxRetries := 3, retryDelayMs := 5000, createdBy := some "alice"
    tags := ["demo"], createdAt := 0, updatedAt := 0, lastRunAt := none
    nextRunAt := some 60000, totalRuns := 2, successfulRuns := 1
    failedRuns := 1 }

/-- Claim C4, witness: a successful run recorded against a concrete job at
time 5000 increments `total_runs` from 2 to 3 and sets `last_run_at`. -/
theorem claim_C4_witness :
    JobRepository.updateJobStats [jobSample] "job-1" true 5000 =
      some (applyStats jobSample true 5000,
        updateJobStatsList [jobSample] "job-1" true 5000) ∧
    (applyStats jobSample true 5000).totalRuns = jobSample.totalRuns + 1 ∧
    (applyStats jobSample true 5000).lastRunAt = some 5000 :=
  ⟨(claim_C4_updateJobStats [jobSample] "job-1" true 5000 jobSample (by decide)).1,
   (claim_C4_updateJobStats [jobSample] "job-1" true 5000 jobSample (by decide)).2.1,
   (claim_C4_updateJobStats [jobSample] "job-1" true 5000 jobSample
     (by decide)).2.2.2.2.1⟩

/-- Claim C6: on an existing job and a valid patch, `update` persists the
merged row; `next_run_at` is kept exactly when the merged cron expression
equals the existing one, and recomputed from the new expression otherwise;
`updated_at` is set to the database clock (and so advances); every field
not named in the patch, and all the fields the `UPDATE` statement does not
write (counters, `last_run_at`, `created_at`), keep their previous
values. -/
theorem claim_C6_update (jobs : List JobRow) (id : String) (p : JobPatch)
    (now dbNow : Int) (j : JobRow)
    (hfind : findById jobs id = some j)
    (hval : jobValidate (mergeJob j p) = true) :
    JobRepository.update jobs id p now dbNow =
      some (updateRow j p now dbNow,
        jobs.map (fun r => if r.id = id then updateRow j p now dbNow else r)) ∧
    (p.cronExpression.getD j.cronExpression = j.cronExpression →
      (updateRow j p now dbNow).nextRunAt = j.nextRunAt) ∧
    (∀ c, p.cronExpression = some c → c ≠ j.cronExpression →
      (updateRow j p now dbNow).nextRunAt = calculateNextRunTime c now) ∧
    (updateRow j p now dbNow).updatedAt = dbNow ∧
    (j.updatedAt < dbNow → j.updatedAt < (updateRow j p now dbNow).updatedAt) ∧
    (p.name = none → (updateRow j p now dbNow).name = j.name) ∧
    (p.description = none →
      (updateRow j p now dbNow).description = j.description) ∧
    (p.isActive = none → (updateRow j p now dbNow).isActive = j.isActive) ∧
    (p.jobType = none → (updateRow j p now dbNow).jobType = j.jobType) ∧
    (p.payload = none → (updateRow j p now dbNow).payload = j.payload) ∧
    (p.timeoutMs = none → (updateRow j p now dbNow).timeoutMs = j.timeoutMs) ∧
    (p.maxRetries = none →
      (updateRow j p now dbNow).maxRetries = j.maxRetries) ∧
    (p.retryDelayMs = none →
      (updateRow j p now dbNow).retryDelayMs = j.retryDelayMs) ∧
    (p.createdBy = none → (updateRow j p now dbNow).createdBy = j.createdBy) ∧
    (p.tags = none → (updateRow j p now dbNow).tags = j.tags) ∧
    (updateRow j p now dbNow).totalRuns = j.totalRuns ∧
    (updateRow j p now dbNow).successfulRuns = j.successfulRuns ∧
    (updateRow j p now dbNow).failedRuns = j.failedRuns ∧
    (updateRow j p now dbNow).lastRunAt = j.lastRunAt ∧
    (updateRow j p now dbNow).createdAt = j.createdAt := by
  refine ⟨?_, ?_, ?_, rfl, ?_, ?_, ?_, ?_, ?_, ?_, ?_, ?_, ?_, ?_, ?_,
    rfl, rfl, rfl, rfl, rfl⟩
  · rw [JobRepository.update, hfind]
    simp [hval]
  · intro hc
    have hmc : (mergeJob j p).cronExpression = j.cronExpression := hc
    simp [updateRow, hmc]
  · intro c hc hne
    have hmc : (mergeJob j p).cronExpression = c := by simp [mergeJob, hc]
    simp only [updateRow, hmc]
    rw [if_neg (Ne.symm hne)]
  · intro hlt
    exact hlt
  · intro hn
    simp [updateRow, mergeJob, hn]
  · intro hn
    simp [updateRow, mergeJob, hn]
  · intro hn
    simp [updateRow, mergeJob, hn]
  · intro hn
    simp [updateRow, mergeJob, hn]
  · intro hn
    simp [updateRow, mergeJob, hn]
  · intro hn
    simp [updateRow, mergeJob, hn]
  · intro hn
    simp [updateRow, mergeJob, hn]
  · intro hn
    simp [updateRow, mergeJob, hn]
  · intro hn
    simp [updateRow, mergeJob, hn]
  · intro hn
    simp [updateRow, mergeJob, hn]

/-- A patch used by the C6 witness: rename the job and change its cron
expression to daily 09:00. -/
def patchSample : JobPatch :=
  { name := some "tock"
    cronExpression := some ⟨.num 0, .num 9, .star, .star, .star⟩ }

/-- Claim C6, witness: updating the sample job with a patch that changes
the cron expression recomputes `next_run_at` from the new expression,
stamps `updated_at` with the database clock, and keeps the untouched
`payload` and counters. -/
theorem claim_C6_witness :
    JobRepository.update [jobSample] "job-1" patchSample 0 100 =
      some (updateRow jobSample patchSample 0 100,
        [jobSample].map (fun r =>
          if r.id = "job-1" then updateRow jobSample patchSample 0 100 else r)) ∧
    (updateRow jobSample patchSample 0 100).nextRunAt =
      calculateNextRunTime ⟨.num 0, .num 9, .star, .star, .star⟩ 0 ∧
    (updateRow jobSample patchSample 0 100).updatedAt = 100 ∧
    (updateRow jobSample patchSample 0 100).payload = jobSample.payload ∧
    (updateRow jobSample patchSample 0 100).totalRuns = jobSample.totalRuns :=
  ⟨(claim_C6_update [jobSample] "job-1" patchSample 0 100 jobSample
      (by decide) (by decide)).1,
   (claim_C6_update [jobSample] "job-1" patchSample 0 100 jobSample
      (by decide) (by decide)).2.2.1 _ rfl (by decide),
   (claim_C6_update [jobSample] "job-1" patchSample 0 100 jobSample
      (by decide) (by decide)).2.2.2.1,
   (claim_C6_update [jobSample] "job-1" patchSample 0 100 jobSample
      (by decide) (by decide)).2.2.2.2.2.2.2.2.2.1 rfl,
   (claim_C6_update [jobSample] "job-1" patchSample 0 100 jobSample
      (by decide) (by decide)).2.2.2.2.2.2.2.2.2.2.2.2.2.2.2.1⟩

/-- A row of the `job_executions` table.  The database-generated UUID is
modeled as a `Nat` drawn from a fresh counter. -/
structure ExecutionRow where
  id : Nat
  jobId : String
  status : String
  startedAt : Int
  completedAt : Option Int
  durationMs : Option Int
  errorMessage : Option String
  output : Option String
deriving DecidableEq, Repr

/-- The in-memory state of `SchedulerService` together with the two
database tables it reads and writes.  `activeTasks` and `executionQueue`
model the key sets of the two `Map`s (`executionQueue` keeps the recorded
start time), `nextExecId` is the id the next inserted execution row
receives. -/
structure SchedulerState where
  activeTasks : List String
  executionQueue : List (String × Int)
  totalExecutions : Nat
  successfulExecutions : Nat
  failedExecutions : Nat
  averageExecutionTime : ℚ
  isRunning : Bool
  jobs : List JobRow
  executions : List ExecutionRow
  nextExecId : Nat
deriving DecidableEq, Repr

/-- The freshly constructed `SchedulerService` (its constructor state) over
an empty database. -/
def schedInit : SchedulerState :=
  { activeTasks := [], executionQueue := [], totalExecutions := 0
    successfulExecutions := 0, failedExecutions := 0
    averageExecutionTime := 0, isRunning := false, jobs := []
    executions := [], nextExecId := 0 }

/-- The success message produced by `performJobExecution` per job type. -/
def executionOutput (jobType : String) : String :=
  match jobType with
  | "scheduled" => "Scheduled job completed successfully"
  | "immediate" => "Immediate job completed successfully"
  | "recurring" => "Recurring job completed successfully"
  | _ => "Job completed successfully"

/-- `performJobExecution(job)`: a simulated executor raced against a
deadline of `job.timeoutMs`.  The simulated work takes `delay`
milliseconds (a random 500-2500 ms in the source; here a parameter); when
the deadline fires no later than the work finishes, the promise rejects
with `Error("Job execution timeout")`. -/
def performJobExecution (job : JobRow) (delay : Int) : Except String String :=
  if job.timeoutMs ≤ delay then Except.error "Job execution timeout"
  else Except.ok (executionOutput job.jobType)

/-- `updateExecutionRecord(executionId, status, duration, errorMessage,
output)`: `UPDATE job_executions SET status, completed_at = NOW(),
duration_ms, error_message, output WHERE id = $1`. -/
def updateExecutionRecord (rows : List ExecutionRow) (eid : Nat)
    (status : String) (completedAt : Int) (duration : Int)
    (errorMessage : Option String) (output : Option String) :
    List ExecutionRow :=
  rows.map (fun r =>
    if r.id = eid then
      { r with
        status := status
        completedAt := some completedAt
        durationMs := some duration
        errorMessage := errorMessage
        output := output }
    else r)

/-- `updateServiceStats(duration, success)`: bump the counters and the
running mean (`avg := (avg * (total - 1) + duration) / total` after the
increment). -/
def updateServiceStats (s : SchedulerState) (duration : ℚ) (success : Bool) :
    SchedulerState :=
  { s with
    totalExecutions := s.totalExecutions + 1
    successfulExecutions := s.successfulExecutions + (if success then 1 else 0)
    failedExecutions := s.failedExecutions + (if success then 0 else 1)
    averageExecutionTime :=
      (s.averageExecutionTime * s.totalExecutions + duration) /
        (s.totalExecutions + 1) }

/-- `updateNextRunTime(job)`: recompute `next_run_at` from the current
time and persist it with `updated_at = NOW()`; on an Invalid Date the
write fails and is swallowed by the surrounding `catch`. -/
def updateNextRunTime (s : SchedulerState) (job : JobRow) (now : Int) :
    SchedulerState :=
  match calculateNextRunTime job.cronExpression now with
  | some nra =>
    { s with jobs := s.jobs.map (fun r =>
        if r.id = job.id then { r with nextRunAt := some nra, updatedAt := now }
        else r) }
  | none => s

/-- `SchedulerService.executeJob(job)` from
`src/services/schedulerService.js`.  The single-flight guard is checked
first; then the job id is put into `executionQueue` and a provisional
`running` row is inserted.  On success the row becomes `completed` with
the output and the stats, next-run time and service stats are updated; on
failure (including the timeout rejection) the row becomes `failed` with
the error message; the `finally` block removes the id from the queue.
Wall-clock instants are modeled from `startTime`: the executor finishes at
`startTime + delay` on success and rejects at `startTime + job.timeoutMs`
on timeout. -/
def executeJob (s : SchedulerState) (job : JobRow) (startTime delay : Int) :
    SchedulerState :=
  if s.executionQueue.any (fun en => en.1 = job.id) then s
  else
    let execId := s.nextExecId
    let s1 : SchedulerState :=
      { s with
        executionQueue := s.executionQueue ++ [(job.id, startTime)]
        executions := (s.executions ++
          [{ id := execId, jobId := job.id, status := "running",
             startedAt := startTime, completedAt := none, durationMs := none,
             errorMessage := none, output := none }])
        nextExecId := execId + 1 }
    match performJobExecution job delay with
    | Except.ok result =>
      let s2 := { s1 with executions :=
        (updateExecutionRecord s1.executions execId "completed"
          (startTime + delay) delay none (some result)) }
      let s3 := { s2 with jobs :=
        (updateJobStatsList s2.jobs job.id true (startTime + delay)) }
      let s4 := updateNextRunTime s3 job (startTime + delay)
      let s5 := updateServiceStats s4 (delay : ℚ) true
      { s5 with executionQueue :=
          (s5.executionQueue.filter (fun en => ¬(en.1 = job.id))) }
    | Except.error msg =>
      let s2 := { s1 with executions :=
        (updateExecutionRecord s1.executions execId "failed"
          (startTime + job.timeoutMs) job.timeoutMs (some msg) none) }
      let s3 := { s2 with jobs :=
        (updateJobStatsList s2.jobs job.id false (startTime + job.timeoutMs)) }
      let s5 := updateServiceStats s3 (job.timeoutMs : ℚ) false
      { s5 with executionQueue :=
          (s5.executionQueue.filter (fun en => ¬(en.1 = job.id))) }

/-- `scheduleJob(job)` restricted to its effect on the timer-key set:
an invalid cron expression is logged and skipped; otherwise the timer for
`job.id` is (re)installed, which leaves the key set unchanged when the id
is already present. -/
def scheduleJobTasks (tasks : List String) (job : JobRow) : List String :=
  if cronValidate job.cronExpression then
    if job.id ∈ tasks then tasks else tasks ++ [job.id]
  else tasks

/-- `SchedulerService.syncJobs()` from `src/services/schedulerService.js`:
when running, load `findAll({ isActive: true, limit: 1000 })`, schedule
the loaded jobs whose id is not in the pre-sync timer set, then unschedule
the pre-sync timer ids that are absent from the loaded id set.  The
running-execution queue and the database are not touched. -/
def syncJobs (s : SchedulerState) : SchedulerState :=
  if s.isRunning then
    { s with activeTasks :=
        ((((JobRepository.findAllActive s.jobs).filter
            (fun j => j.id ∉ s.activeTasks)).foldl scheduleJobTasks
          s.activeTasks).filter
          (fun i => ¬(i ∈ s.activeTasks ∧
            i ∉ (JobRepository.findAllActive s.jobs).map (fun j => j.id)))) }
  else s

/-- A JSON-ish value that is either a string or a number, as produced for
the `successRate` field. -/
inductive StatsValue where
  | str : String → StatsValue
  | num : Nat → StatsValue
deriving DecidableEq, Repr

/-- Whether a `StatsValue` is a string. -/
def StatsValue.isString : StatsValue → Bool
  | .str _ => true
  | .num _ => false

/-- Two-digit zero-padded decimal rendering. -/
def padTwo (n : Nat) : String :=
  if n < 10 then "0" ++ toString n else toString n

/-- `x.toFixed(2)` for a non-negative value: round to hundredths
(half away from zero) and render with exactly two decimals.  Exact
rational rounding stands in for the IEEE-double computation of the
source. -/
def fixed2OfRat (q : ℚ) : String :=
  toString ((round (q * 100) : Int).toNat / 100) ++ "." ++
    padTwo ((round (q * 100) : Int).toNat % 100)

/-- The object returned by `SchedulerService.getStats()`. -/
structure SchedulerStats where
  totalExecutions : Nat
  successfulExecutions : Nat
  failedExecutions : Nat
  averageExecutionTime : ℚ
  isRunning : Bool
  activeJobs : Nat
  runningExecutions : Nat
  successRate : StatsValue
deriving DecidableEq, Repr

/-- `SchedulerService.getStats()`: the spread of `this.stats` plus
`isRunning`, the sizes of the two maps, and `successRate`, which is the
`toFixed(2)` percentage string when at least one execution was counted and
the number `0` otherwise. -/
def getStats (s : SchedulerState) : SchedulerStats :=
  { totalExecutions := s.totalExecutions
    successfulExecutions := s.successfulExecutions
    failedExecutions := s.failedExecutions
    averageExecutionTime := s.averageExecutionTime
    isRunning := s.isRunning
    activeJobs := s.activeTasks.length
    runningExecutions := s.executionQueue.length
    successRate :=
      if 0 < s.totalExecutions then
        StatsValue.str (fixed2OfRat
          ((s.successfulExecutions : ℚ) / (s.totalExecutions : ℚ) * 100))
      else StatsValue.num 0 }

/-- Claim C2: when an execution context for the job id is already present
in `executionQueue`, `executeJob` (the single entry point shared by timer
firings and the manual-trigger endpoint, which calls
`this.scheduler.executeJob(job)`) returns before creating an execution
record, updating statistics, or touching any scheduler state: the state is
unchanged. -/
theorem claim_C2_single_flight (s : SchedulerState) (job : JobRow)
    (startTime delay : Int)
    (h : s.executionQueue.any (fun en => en.1 = job.id) = true) :
    executeJob s job startTime delay = s := by
  unfold executeJob
  rw [if_pos h]

/-- A scheduler state with an in-flight execution of the sample job. -/
def schedBusy : SchedulerState :=
  { schedInit with executionQueue := [("job-1", 0)], jobs := [jobSample] }

/-- Claim C2, witness: a second firing of the sample job while it is
in flight leaves the whole scheduler state untouched. -/
theorem claim_C2_witness :
    executeJob schedBusy jobSample 5 100 = schedBusy :=
  claim_C2_single_flight schedBusy jobSample 5 100 (by decide)

/-- A map over execution rows that rewrites only a given id is the
identity when no row carries that id. -/
lemma updateExecutionRecord_fresh (l : List ExecutionRow) (eid : Nat)
    (status : String) (completedAt duration : Int)
    (errorMessage output : Option String)
    (hfresh : ∀ r ∈ l, r.id ≠ eid) :
    updateExecutionRecord l eid status completedAt duration errorMessage
      output = l := by
  unfold updateExecutionRecord
  have hcong : ∀ r ∈ l,
      (if r.id = eid then
        { r with
          status := status
          completedAt := some completedAt
          durationMs := some duration
          errorMessage := errorMessage
          output := output }
      else r) = r := by
    intro r hr
    rw [if_neg (hfresh r hr)]
  rw [List.map_congr_left hcong]
  simp

/-- The sample job with a one-second timeout, used to exercise the
timeout path. -/
def jobSlow : JobRow := { jobSample with timeoutMs := 1000 }

/-- Claim C3, counterexample: running the sample job with
`timeout_ms = 1000` against an executor that takes 1500 ms records the
execution row with `status = "failed"`, not the distinct `"timeout"`
status the claim requires. -/
theorem claim_C3_counterexample :
    (executeJob { schedInit with jobs := [jobSlow] } jobSlow 0 1500).executions =
      [{ id := 0, jobId := "job-1", status := "failed", startedAt := 0,
         completedAt := some 1000, durationMs := some 1000,
         errorMessage := some "Job execution timeout", output := none }] ∧
    "failed" ≠ "timeout" := by
  constructor
  · rfl
  · decide

/-- Claim C3, amended: when the executor exceeds `timeout_ms`, the
execution row for the attempt is recorded with `status = "failed"` (the
`catch` block hard-codes `"failed"`; the schema's `"timeout"` status is
never written), together with `error_message = "Job execution timeout"`,
a `completed_at` instant and a `duration_ms`. -/
theorem claim_C3_amended (s : SchedulerState) (job : JobRow)
    (startTime delay : Int)
    (hq : s.executionQueue.any (fun en => en.1 = job.id) = false)
    (hfresh : ∀ r ∈ s.executions, r.id ≠ s.nextExecId)
    (hto : job.timeoutMs ≤ delay) :
    (executeJob s job startTime delay).executions =
      s.executions ++
        [{ id := s.nextExecId, jobId := job.id, status := "failed",
           startedAt := startTime,
           completedAt := some (startTime + job.timeoutMs),
           durationMs := some job.timeoutMs,
           errorMessage := some "Job execution timeout", output := none }] := by
  unfold executeJob
  rw [if_neg (by simp [hq])]
  unfold performJobExecution
  rw [if_pos hto]
  simp only [updateServiceStats, updateExecutionRecord, List.map_append]
  rw [show (List.map (fun r =>
      if r.id = s.nextExecId then
        { r with
          status := "failed"
          completedAt := some (startTime + job.timeoutMs)
          durationMs := some job.timeoutMs
          errorMessage := some "Job execution timeout"
          output := (none : Option String) }
      else r) s.executions) = s.executions from by
    have hcong : ∀ r ∈ s.executions, (if r.id = s.nextExecId then
        { r with
          status := "failed"
          completedAt := some (startTime + job.timeoutMs)
          durationMs := some job.timeoutMs
          errorMessage := some "Job execution timeout"
          output := (none : Option String) }
      else r) = r := fun r hr => if_neg (hfresh r hr)
    rw [List.map_congr_left hcong]
    simp]
  simp

/-- Claim C3, witness for the amended statement: the concrete timeout run
of `jobSlow` used in the counterexample satisfies the amended
description. -/
theorem claim_C3_witness :
    (executeJob { schedInit with jobs := [jobSlow] } jobSlow 0 1500).executions =
      ({ schedInit with jobs := [jobSlow] } : SchedulerState).executions ++
        [{ id := 0, jobId := "job-1", status := "failed", startedAt := 0,
           completedAt := some 1000, durationMs := some 1000,
           errorMessage := some "Job execution timeout", output := none }] :=
  claim_C3_amended { schedInit with jobs := [jobSlow] } jobSlow 0 1500
    (by decide) (by decide) (by decide)

/-- Membership after folding `scheduleJob` over a batch of jobs with valid
cron expressions: exactly the prior timers plus the batch's ids. -/
lemma mem_foldl_scheduleJobTasks (L : List JobRow) (acc : List String)
    (x : String) (hval : ∀ j ∈ L, cronValidate j.cronExpression = true) :
    x ∈ L.foldl scheduleJobTasks acc ↔ x ∈ acc ∨ ∃ j ∈ L, j.id = x := by
  induction L generalizing acc with
  | nil => simp
  | cons a as ih =>
    simp only [List.foldl_cons]
    rw [ih (scheduleJobTasks acc a)
      (fun j hj => hval j (List.mem_cons_of_mem a hj))]
    have ha := hval a (List.mem_cons_self a as)
    unfold scheduleJobTasks
    rw [if_pos ha]
    by_cases hc : a.id ∈ acc
    · rw [if_pos hc]
      constructor
      · rintro (h | ⟨j, hj, hjx⟩)
        · exact Or.inl h
        · exact Or.inr ⟨j, List.mem_cons_of_mem a hj, hjx⟩
      · rintro (h | ⟨j, hj, hjx⟩)
        · exact Or.inl h
        · rcases List.mem_cons.mp hj with rfl | hj2
          · exact Or.inl (hjx ▸ hc)
          · exact Or.inr ⟨j, hj2, hjx⟩
    · rw [if_neg hc]
      constructor
      · rintro (h | ⟨j, hj, hjx⟩)
        · rcases List.mem_append.mp h with h2 | h2
          · exact Or.inl h2
          · exact Or.inr ⟨a, List.mem_cons_self a as,
              (List.mem_singleton.mp h2).symm⟩
        · exact Or.inr ⟨j, List.mem_cons_of_mem a hj, hjx⟩
      · rintro (h | ⟨j, hj, hjx⟩)
        · exact Or.inl (List.mem_append.mpr (Or.inl h))
        · rcases List.mem_cons.mp hj with rfl | hj2
          · exact Or.inl (List.mem_append.mpr (Or.inr (by simp [hjx])))
          · exact Or.inr ⟨j, hj2, hjx⟩

/-- The sample job under a different id with a `next_run_at` in the
future. -/
def jobFuture : JobRow :=
  { jobSample with id := "job-a", nextRunAt := some 100 }

/-- A running scheduler over one active job with a future `next_run_at`. -/
def schedDrift : SchedulerState :=
  { schedInit with isRunning := true, jobs := [jobFuture] }

/-- Claim C7, counterexample: with one active job whose `next_run_at`
lies in the future, `getActiveJobs()` (the load the claim prescribes)
returns the empty set at `now = 0`, yet the sync tick schedules the job,
because `syncJobs` actually loads
`findAll({ isActive: true, limit: 1000 })`. -/
theorem claim_C7_counterexample :
    "job-a" ∈ (syncJobs schedDrift).activeTasks ∧
    JobRepository.getActiveJobs schedDrift.jobs 0 = [] := by
  constructor
  · decide
  · rfl

/-- Claim C7, amended: each sync tick loads the active set via
`findAll({ isActive: true, limit: 1000 })` (all active jobs regardless of
`next_run_at`, capped at 1000) rather than `getActiveJobs()`; provided
every loaded job has a valid cron expression, the post-sync timer set is
exactly the loaded id set (newcomers scheduled, absentees unscheduled),
and the running-execution queue and the database are untouched. -/
theorem claim_C7_amended (s : SchedulerState)
    (hrun : s.isRunning = true)
    (hval : ∀ j ∈ JobRepository.findAllActive s.jobs,
      cronValidate j.cronExpression = true) :
    (∀ i, i ∈ (syncJobs s).activeTasks ↔
      i ∈ (JobRepository.findAllActive s.jobs).map (fun j => j.id)) ∧
    (syncJobs s).executionQueue = s.executionQueue ∧
    (syncJobs s).jobs = s.jobs ∧
    (syncJobs s).executions = s.executions := by
  unfold syncJobs
  rw [if_pos hrun]
  refine ⟨?_, rfl, rfl, rfl⟩
  intro i
  simp only [List.mem_filter, decide_eq_true_eq]
  rw [mem_foldl_scheduleJobTasks _ _ _
    (fun j hj => hval j (List.mem_of_mem_filter hj))]
  simp only [List.mem_filter, decide_eq_true_eq, List.mem_map]
  constructor
  · rintro ⟨h1, h2⟩
    rcases h1 with hacc | ⟨j, ⟨hj, hnot⟩, hjx⟩
    · by_contra hex
      exact h2 ⟨hacc, fun ⟨j, hj, hjx⟩ => hex ⟨j, hj, hjx⟩⟩
    · exact ⟨j, hj, hjx⟩
  · rintro ⟨j, hj, hjx⟩
    refine ⟨?_, ?_⟩
    · by_cases hacc : i ∈ s.activeTasks
      · exact Or.inl hacc
      · exact Or.inr ⟨j, ⟨hj, by rwa [hjx]⟩, hjx⟩
    · rintro ⟨hacc, hnex⟩
      exact hnex ⟨j, hj, hjx⟩

/-- Claim C7, witness: in `schedDrift` the amended description holds: the
post-sync timer set is the loaded id set and the queue is untouched. -/
theorem claim_C7_witness :
    ("job-a" ∈ (syncJobs schedDrift).activeTasks ↔
      "job-a" ∈ (JobRepository.findAllActive schedDrift.jobs).map
        (fun j => j.id)) ∧
    (syncJobs schedDrift).executionQueue = schedDrift.executionQueue :=
  ⟨(claim_C7_amended schedDrift rfl (by decide)).1 "job-a",
   (claim_C7_amended schedDrift rfl (by decide)).2.1⟩

/-- Claim C9, counterexample: in the freshly constructed scheduler state
(no execution has yet run), `getStats().successRate` is the number `0`,
not a fixed-2-decimal percentage string. -/
theorem claim_C9_counterexample :
    (getStats schedInit).successRate = StatsValue.num 0 ∧
    StatsValue.isString (getStats schedInit).successRate = false := by
  constructor
  · rfl
  · rfl

/-- Claim C9, amended: in every scheduler state, `getStats()` reports
`activeJobs` and `runningExecutions` as the sizes of the timer map and the
running-executions map; `successRate` is the fixed-2-decimal percentage
string of successes over total times 100 when at least one execution has
been counted, and the number `0` (not a string) in the zero state. -/
theorem claim_C9_amended (s : SchedulerState) :
    (getStats s).activeJobs = s.activeTasks.length ∧
    (getStats s).runningExecutions = s.executionQueue.length ∧
    (0 < s.totalExecutions →
      (getStats s).successRate = StatsValue.str (fixed2OfRat
        ((s.successfulExecutions : ℚ) / (s.totalExecutions : ℚ) * 100))) ∧
    (s.totalExecutions = 0 → (getStats s).successRate = StatsValue.num 0) := by
  refine ⟨rfl, rfl, ?_, ?_⟩
  · intro h
    simp [getStats, h]
  · intro h
    simp [getStats, h]

/-- A scheduler state with one counted successful execution and one armed
timer, used by the C9 witness. -/
def schedOne : SchedulerState :=
  { schedInit with
    totalExecutions := 1
    successfulExecutions := 1
    activeTasks := ["job-1"] }

/-- Claim C9, witness: with one successful execution out of one,
`successRate` is the percentage string and `activeJobs` counts the single
timer. -/
theorem claim_C9_witness :
    (getStats schedOne).activeJobs = schedOne.activeTasks.length ∧
    (getStats schedOne).successRate = StatsValue.str (fixed2OfRat
      ((schedOne.successfulExecutions : ℚ) /
        (schedOne.totalExecutions : ℚ) * 100)) :=
  ⟨(claim_C9_amended schedOne).1,
   (claim_C9_amended schedOne).2.2.1 (by decide)⟩

/-- A cache entry from `src/BE/src/services/cacheService.js`: the stored
value plus creation, last-access and expiry bookkeeping (`expiresAt` is
`null` when no TTL was given). -/
structure CacheEntry (V : Type) where
  value : V
  createdAt : Int
  lastAccessed : Int
  expiresAt : Option Int
deriving DecidableEq

/-- The `CacheService` state: the entry map (in insertion order, as a
JavaScript `Map` iterates) and the hit/miss/set/delete counters.  The TTL
timers only duplicate the lazy expiry check in `get` in real time and are
not modeled. -/
structure CacheState (V : Type) where
  cache : List (String × CacheEntry V)
  hits : Nat
  misses : Nat
  sets : Nat
  deletes : Nat
deriving DecidableEq

/-- An empty cache with zeroed counters (the `CacheService` constructor). -/
def cacheInit (V : Type) : CacheState V :=
  { cache := [], hits := 0, misses := 0, sets := 0, deletes := 0 }

/-- `CacheService.delete(key)`: remove the entry if present and count the
deletion only when the key existed. -/
def cacheDelete {V : Type} (s : CacheState V) (key : String) : CacheState V :=
  if s.cache.any (fun kv => kv.1 = key) then
    { s with
      cache := s.cache.filter (fun kv => ¬(kv.1 = key))
      deletes := s.deletes + 1 }
  else s

/-- `CacheService.get(key)`: a present entry whose `expiresAt` is set and
strictly in the past is deleted and counted as a miss; otherwise the entry
is returned, its `lastAccessed` is refreshed and a hit is counted; an
absent key counts a miss and returns `null`. -/
def cacheGet {V : Type} (s : CacheState V) (key : String) (now : Int) :
    Option V × CacheState V :=
  match s.cache.find? (fun kv => kv.1 = key) with
  | some kv =>
    match kv.2.expiresAt with
    | some exp =>
      if exp < now then
        (none, { cacheDelete s key with
                 misses := (cacheDelete s key).misses + 1 })
      else
        (some kv.2.value,
         { s with
           cache := (s.cache.map (fun kv2 =>
             if kv2.1 = key then (kv2.1, { kv2.2 with lastAccessed := now })
             else kv2))
           hits := s.hits + 1 })
    | none =>
      (some kv.2.value,
       { s with
         cache := (s.cache.map (fun kv2 =>
           if kv2.1 = key then (kv2.1, { kv2.2 with lastAccessed := now })
           else kv2))
         hits := s.hits + 1 })
  | none => (none, { s with misses := s.misses + 1 })

/-- `CacheService.evictLRU()`: stably sort the entries by `lastAccessed`
ascending and delete the oldest tenth. -/
def evictLRU {V : Type} (s : CacheState V) : CacheState V :=
  ((s.cache.mergeSort (fun a b => a.2.lastAccessed ≤ b.2.lastAccessed)).take
    (s.cache.length / 10)).foldl (fun st kv => cacheDelete st kv.1) s

/-- `CacheService.set(key, value, ttlMs)`: build the entry (`expiresAt` is
`now + ttlMs` for a truthy TTL and `null` otherwise), overwrite in place
when the key exists (a JavaScript `Map` keeps the original insertion
position) or append, count the set, and evict when the map exceeds 1000
entries. -/
def cacheSet {V : Type} (s : CacheState V) (key : String) (value : V)
    (now : Int) (ttlMs : Option Int) : CacheState V :=
  let entry : CacheEntry V :=
    { value := value, createdAt := now, lastAccessed := now,
      expiresAt :=
        match ttlMs with
        | some t => if t = 0 then none else some (now + t)
        | none => none }
  let cache1 :=
    if s.cache.any (fun kv => kv.1 = key) then
      s.cache.map (fun kv => if kv.1 = key then (key, entry) else kv)
    else s.cache ++ [(key, entry)]
  let s1 : CacheState V := { s with cache := cache1, sets := s.sets + 1 }
  if 1000 < s1.cache.length then evictLRU s1 else s1

/-- Looking up a key in a list from which that key was filtered out finds
nothing. -/
lemma find?_filter_ne {V : Type} (l : List (String × CacheEntry V))
    (k : String) :
    (l.filter (fun kv => ¬(kv.1 = k))).find? (fun kv => kv.1 = k) = none := by
  rw [List.find?_eq_none]
  intro x hx
  have hm := (List.mem_filter.mp hx).2
  simp at hm ⊢
  exact hm

/-- Finding a key after an insert-or-replace of that key yields the new
entry. -/
lemma find?_insert {V : Type} (l : List (String × CacheEntry V))
    (k : String) (e : CacheEntry V) :
    (if l.any (fun kv => kv.1 = k) then
        l.map (fun kv => if kv.1 = k then (k, e) else kv)
      else l ++ [(k, e)]).find? (fun kv => kv.1 = k) = some (k, e) := by
  by_cases h : l.any (fun kv => kv.1 = k) = true
  · rw [if_pos h]
    induction l with
    | nil => simp at h
    | cons a as ih =>
      by_cases ha : a.1 = k
      · simp [List.find?_cons, ha]
      · have h2 : as.any (fun kv => kv.1 = k) = true := by
          simp only [List.any_cons, Bool.or_eq_true, decide_eq_true_eq] at h
          rcases h with h | h
          · exact absurd h ha
          · exact h
        simpa [List.find?_cons, ha] using ih h2
  · rw [if_neg h]
    induction l with
    | nil => simp [List.find?_cons]
    | cons a as ih =>
      have ha : ¬(a.1 = k) := by
        intro hh
        exact h (by simp [List.any_cons, hh])
      have h2 : ¬(as.any (fun kv => kv.1 = k) = true) := by
        intro hh
        exact h (by simp [List.any_cons, hh])
      simpa [List.find?_cons, ha] using ih h2

/-- Refreshing the last-access time of a key rewrites the found entry and
nothing else. -/
lemma find?_touch {V : Type} (l : List (String × CacheEntry V)) (k : String)
    (now : Int) :
    ((l.map (fun kv2 =>
      if kv2.1 = k then (kv2.1, { kv2.2 with lastAccessed := now })
      else kv2)).find? (fun kv => kv.1 = k)) =
    (l.find? (fun kv => kv.1 = k)).map
      (fun kv => (kv.1, { kv.2 with lastAccessed := now })) := by
  induction l with
  | nil => rfl
  | cons a as ih =>
    by_cases ha : a.1 = k
    · simp [List.find?_cons, ha]
    · simpa [List.find?_cons, ha] using ih

/-- Deleting a key does not change the miss counter. -/
lemma cacheDelete_misses {V : Type} (s : CacheState V) (k : String) :
    (cacheDelete s k).misses = s.misses := by
  unfold cacheDelete
  split <;> rfl

/-- Setting a key with a positive TTL (no eviction pending) makes the key
findable with exactly the new entry, and leaves the hit and miss counters
alone. -/
lemma cacheSet_spec {V : Type} (s : CacheState V) (k : String) (v : V)
    (tset ttl : Int) (hsz : s.cache.length < 1000) (httl : ¬ ttl = 0) :
    (cacheSet s k v tset (some ttl)).cache.find? (fun kv => kv.1 = k) =
      some (k, ⟨v, tset, tset, some (tset + ttl)⟩) ∧
    (cacheSet s k v tset (some ttl)).hits = s.hits ∧
    (cacheSet s k v tset (some ttl)).misses = s.misses := by
  simp only [cacheSet, if_neg httl]
  have hlen : ¬(1000 <
      (if s.cache.any (fun kv => kv.1 = k) then
        s.cache.map (fun kv =>
          if kv.1 = k then
            (k, (⟨v, tset, tset, some (tset + ttl)⟩ : CacheEntry V))
          else kv)
      else s.cache ++
        [(k, (⟨v, tset, tset, some (tset + ttl)⟩ : CacheEntry V))]).length) := by
    split
    · rw [List.length_map]
      omega
    · rw [List.length_append]
      simp only [List.length_cons, List.length_nil]
      omega
  rw [if_neg hlen]
  exact ⟨find?_insert s.cache k _, rfl, rfl⟩

/-- Claim C10: after `set(k, v, ttl)` (with a positive TTL and no LRU
overflow), a `get(k)` strictly after the expiry instant deletes the entry,
counts a miss and returns `null`; a `get(k)` at or before the expiry
instant counts a hit, refreshes the entry's `lastAccessed` and returns
exactly the stored value; and a `get` of a never-set key counts a miss and
returns `null`. -/
theorem claim_C10_cache {V : Type} (s : CacheState V) (k : String) (v : V)
    (tset ttl tget : Int) (hsz : s.cache.length < 1000) (httl : 0 < ttl) :
    (cacheSet s k v tset (some ttl)).cache.find? (fun kv => kv.1 = k) =
      some (k, ⟨v, tset, tset, some (tset + ttl)⟩) ∧
    (tset + ttl < tget →
      (cacheGet (cacheSet s k v tset (some ttl)) k tget).1 = none ∧
      (cacheGet (cacheSet s k v tset (some ttl)) k tget).2.misses =
        (cacheSet s k v tset (some ttl)).misses + 1 ∧
      (cacheGet (cacheSet s k v tset (some ttl)) k tget).2.cache.find?
        (fun kv => kv.1 = k) = none) ∧
    (tget ≤ tset + ttl →
      (cacheGet (cacheSet s k v tset (some ttl)) k tget).1 = some v ∧
      (cacheGet (cacheSet s k v tset (some ttl)) k tget).2.hits =
        (cacheSet s k v tset (some ttl)).hits + 1 ∧
      (cacheGet (cacheSet s k v tset (some ttl)) k tget).2.cache.find?
        (fun kv => kv.1 = k) =
        some (k, ⟨v, tset, tget, some (tset + ttl)⟩)) ∧
    (s.cache.find? (fun kv => kv.1 = k) = none →
      (cacheGet s k tget).1 = none ∧
      (cacheGet s k tget).2.misses = s.misses + 1) := by
  obtain ⟨hfind, hhits, hmiss⟩ :=
    cacheSet_spec s k v tset ttl hsz (by omega)
  refine ⟨hfind, ?_, ?_, ?_⟩
  · intro hexp
    simp only [cacheGet, hfind]
    rw [if_pos hexp]
    refine ⟨rfl, ?_, ?_⟩
    · simp only [cacheDelete_misses]
    · simp only [cacheDelete]
      split
      · exact find?_filter_ne _ _
      · rename_i hany
        exfalso
        apply hany
        exact List.any_eq_true.mpr
          ⟨(k, ⟨v, tset, tset, some (tset + ttl)⟩),
           List.mem_of_find?_eq_some hfind, by simp⟩
  · intro hle
    simp only [cacheGet, hfind]
    rw [if_neg (not_lt.mpr hle)]
    refine ⟨rfl, rfl, ?_⟩
    rw [find?_touch, hfind]
    rfl
  · intro hnone
    simp [cacheGet, hnone]

/-- Claim C10, witness: on an empty `Nat`-valued cache, set
`"jobs:list" ↦ 42` at time 0 with TTL 120000; a get at 130000 misses,
deletes the entry and returns `null`; a get at 60000 hits, refreshes the
last access and returns 42; a get of the never-set key `"job:xyz"` misses
and returns `null`. -/
theorem claim_C10_witness :
    ((cacheGet (cacheSet (cacheInit Nat) "jobs:list" 42 0 (some 120000))
        "jobs:list" 130000).1 = none ∧
      (cacheGet (cacheSet (cacheInit Nat) "jobs:list" 42 0 (some 120000))
        "jobs:list" 130000).2.misses =
        (cacheSet (cacheInit Nat) "jobs:list" 42 0 (some 120000)).misses + 1 ∧
      (cacheGet (cacheSet (cacheInit Nat) "jobs:list" 42 0 (some 120000))
        "jobs:list" 130000).2.cache.find?
          (fun kv => kv.1 = "jobs:list") = none) ∧
    ((cacheGet (cacheSet (cacheInit Nat) "jobs:list" 42 0 (some 120000))
        "jobs:list" 60000).1 = some 42 ∧
      (cacheGet (cacheSet (cacheInit Nat) "jobs:list" 42 0 (some 120000))
        "jobs:list" 60000).2.hits =
        (cacheSet (cacheInit Nat) "jobs:list" 42 0 (some 120000)).hits + 1 ∧
      (cacheGet (cacheSet (cacheInit Nat) "jobs:list" 42 0 (some 120000))
        "jobs:list" 60000).2.cache.find?
          (fun kv => kv.1 = "jobs:list") =
          some ("jobs:list", ⟨42, 0, 60000, some 120000⟩)) ∧
    ((cacheGet (cacheInit Nat) "job:xyz" 500).1 = none ∧
      (cacheGet (cacheInit Nat) "job:xyz" 500).2.misses =
        (cacheInit Nat).misses + 1) :=
  ⟨(claim_C10_cache (cacheInit Nat) "jobs:list" 42 0 120000 130000
      (by decide) (by decide)).2.1 (by decide),
   (claim_C10_cache (cacheInit Nat) "jobs:list" 42 0 120000 60000
      (by decide) (by decide)).2.2.1 (by decide),
   (claim_C10_cache (cacheInit Nat) "job:xyz" 42 0 120000 500
      (by decide) (by decide)).2.2.2 rfl⟩
